import Mathlib

/-!
Shallow embedding of the run-identification logic of the workflow-dispatch
action (`src/dispatch.ts`, together with the top-level `run` task).

Modelling conventions:
* TypeScript strings are Lean `String`s; character-level operations go
  through `String.data : List Char`.
* Asynchronous API calls are environment functions supplying the responses;
  thrown JavaScript `Error`s are `Except String` values carrying the
  error message.
* Wall-clock time is modelled by the fixed backoff sleeps of the code
  (1000 ms inside `retryOrDie`, 5000 ms between search cycles) plus an
  environment-supplied extra duration per search cycle; remote calls other
  than those are instantaneous.  Because the code updates its `elapsedTime`
  variable at the top of the loop body, the while-condition of iteration `k`
  reads the value recorded at the top of iteration `k - 1`.
-/

namespace WorkflowDispatch

/-- The string constant in the branch-derivation rule of the Run Enumerator. -/
def refsHeads : String := "refs/heads/"

/-- Error message compared against by the per-candidate catch in
`applyWorkflowRunId` (`error.message !== "Not Found"`). -/
def notFoundMsg : String := "Not Found"

/-- Message of the error thrown by `retryOrDie` on budget exhaustion. -/
def timeoutFetchMsg : String := "Timed out while attempting to fetch data"

/-- Message of the error thrown by `applyWorkflowRunId` when the overall
deadline elapses without a match. -/
def timeoutEngineMsg : String := "Timeout exceeded while attempting to get Run ID"

/-- Drop the exact sequence `pre` from the front of `s`; `none` when `s`
does not start with `pre`.  Character-level model of prefix matching. -/
def dropExact : List Char → List Char → Option (List Char)
  | [], s => some s
  | _ :: _, [] => none
  | p :: ps, c :: cs => if c = p then dropExact ps cs else none

/-- Modelled from the spec: `getBranchName` (imported by `dispatch.ts` from
`./utils`, whose source file is not present).  Per the spec's
branch-derivation rule, a ref of the form `refs/heads/<branch>` yields
`<branch>`; tag refs and all other ref shapes yield no branch. -/
def getBranchName (ref : String) : Option String :=
  (dropExact refsHeads.data ref.data).map fun rest => String.mk rest

/-- Model of JavaScript `new RegExp(marker).test(step)` at the character
level, for regex-safe markers (markers without regex metacharacters, e.g.
hyphen-delimited hex): the test succeeds iff the marker occurs as a
contiguous substring of the step name. -/
def startsList : List Char → List Char → Bool
  | [], _ => true
  | _ :: _, [] => false
  | n :: ns, h :: hs => n = h && startsList ns hs

/-- Substring search used by `regexTest`: does `needle` occur contiguously
anywhere in `hay`? -/
def containsList (needle : List Char) : List Char → Bool
  | [] => startsList needle []
  | h :: hs => startsList needle (h :: hs) || containsList needle hs

/-- The membership test `idRegex.test(step)` with `idRegex = new
RegExp(marker)`, modelled for regex-safe markers as substring search. -/
def regexTest (marker step : String) : Bool :=
  containsList marker.data step.data

/-- Failure leaving the Retry Envelope: either its own budget-exhaustion
timeout, or an error thrown by the awaited producer call (such as the
non-200 failure of `getWorkflowRunIds`), which `retryOrDie` does not catch
and which therefore propagates to the envelope's caller with its message. -/
inductive RetryError where
  | timeout
  | thrown (msg : String)
deriving DecidableEq

/-- Value of the `elapsedTime` variable read by the while-condition of
iteration `k` of `retryOrDie`: it was written at the top of iteration
`k - 1`, after `k - 1` one-second backoff sleeps (and is `0` at the first
iteration, matching its initialisation). -/
def prevElapsedMs (k : Nat) : Nat := (k - 1) * 1000

/-- The loop of `retryOrDie` from `dispatch.ts`, starting at iteration `k`:
while the (stale) elapsed time is below `timeoutMs`, await the producer; a
thrown producer error is not caught and propagates out of the envelope
immediately; a non-empty response is returned; on an empty response sleep
1000 ms and retry; once the condition fails, throw the timeout error.  The
producer is indexed by the invocation number, and the second component of
the result is the total number of producer invocations made. -/
def retryOrDieGo {α : Type} (producer : Nat → Except String (List α)) (timeoutMs : Int)
    (k : Nat) : Except RetryError (List α) × Nat :=
  if (prevElapsedMs k : Int) < timeoutMs then
    match producer k with
    | .error msg => (.error (.thrown msg), k + 1)
    | .ok response =>
      if 0 < response.length then (.ok response, k + 1)
      else retryOrDieGo producer timeoutMs (k + 1)
  else (.error .timeout, k)
termination_by timeoutMs.toNat / 1000 + 2 - k
decreasing_by
  simp only [prevElapsedMs] at *
  omega

/-- `retryOrDie(retryFunc, timeoutMs)` from `dispatch.ts` as exercised by a
producer that always returns a sequence (never throws): repeatedly invoke
the producer until it yields a non-empty array or the elapsed time exceeds
`timeoutMs`. -/
def retryOrDie {α : Type} (producer : Nat → List α) (timeoutMs : Int) :
    Except RetryError (List α) × Nat :=
  retryOrDieGo (fun i => .ok (producer i)) timeoutMs 0

/-- Outcome of the per-candidate inner loop of `applyWorkflowRunId`. -/
inductive ScanResult where
  | resolved (runId : Nat)
  | fatal (msg : String)
  | exhausted
deriving DecidableEq

/-- The per-candidate loop of `applyWorkflowRunId`: for each run id in
order, fetch its step names (`fetchSteps` models the awaited
`getWorkflowRunJobSteps` call, errors carrying the thrown message); return
the current run id at the first step matching the marker; a thrown
"Not Found" is swallowed and the loop continues with the next candidate;
any other thrown error is rethrown. -/
def scanCandidates (fetchSteps : Nat → Except String (List String)) (marker : String) :
    List Nat → ScanResult
  | [] => .exhausted
  | runId :: rest =>
    match fetchSteps runId with
    | .ok steps =>
      match steps.find? (fun step => regexTest marker step) with
      | some _ => .resolved runId
      | none => scanCandidates fetchSteps marker rest
    | .error msg =>
      if msg = notFoundMsg then scanCandidates fetchSteps marker rest
      else .fatal msg

/-- Environment of one resolution: API responses and time consumption.
`enumProducer k i` is the outcome of the `i`-th `getWorkflowRunIds` call of
search cycle `k` — a run-id list, or a thrown error (such as its non-200
failure) carrying the message; `fetchSteps id` is the outcome of inspecting
run `id`; `cycleExtraMs k` is the time cycle `k` spends in remote calls
beyond its fixed 5000 ms backoff sleep. -/
structure EngineEnv where
  enumProducer : Nat → Nat → Except String (List Nat)
  fetchSteps : Nat → Except String (List String)
  cycleExtraMs : Nat → Nat

/-- Elapsed milliseconds at the top of search cycle `k` of
`applyWorkflowRunId`: every earlier cycle contributed its remote-call time
plus the fixed `WORKFLOW_JOB_STEPS_RETRY_MS = 5000` backoff sleep. -/
def elapsedAt (env : EngineEnv) : Nat → Nat
  | 0 => 0
  | k + 1 => elapsedAt env k + env.cycleExtraMs k + 5000

/-- The enumeration budget computed by each search cycle:
`WORKFLOW_FETCH_TIMEOUT_MS > timeoutMs ? timeoutMs : WORKFLOW_FETCH_TIMEOUT_MS`
with `WORKFLOW_FETCH_TIMEOUT_MS = 60 * 1000`.  Note it is computed from the
overall `timeoutMs`, not from the remaining budget. -/
def fetchTimeout (timeoutMs : Int) : Int :=
  if 60000 > timeoutMs then timeoutMs else 60000

/-- Terminal outcome of `applyWorkflowRunId`: either the run id emitted as
the operation's output, or the operation marked failed with the message of
the error caught by the outermost handler. -/
inductive EngineResult where
  | resolved (runId : Nat)
  | failed (msg : String)
deriving DecidableEq

/-- The search loop of `applyWorkflowRunId` from `dispatch.ts`, starting at
cycle `k`: while the (stale, see `elapsedAt`) elapsed time is below
`timeoutMs`, enumerate candidates by running the Retry Envelope loop on the
fallible `getWorkflowRunIds` producer with budget `fetchTimeout timeoutMs`
— a Retry-Envelope timeout is fatal with the envelope's message, and an
error thrown by the enumeration call itself propagates uncaught with its
own message — then scan the candidates in order, resolve on the first
match, rethrow fatal scan errors, otherwise sleep 5000 ms and start the
next cycle; once the condition fails, throw the overall timeout error.
Thrown errors are caught by the outermost handler, which marks the
operation failed with their message. -/
def engineGo (env : EngineEnv) (marker : String) (timeoutMs : Int) (k : Nat) :
    EngineResult :=
  if (elapsedAt env (k - 1) : Int) < timeoutMs then
    match (retryOrDieGo (env.enumProducer k) (fetchTimeout timeoutMs) 0).1 with
    | .error .timeout => .failed timeoutFetchMsg
    | .error (.thrown msg) => .failed msg
    | .ok runIds =>
      match scanCandidates env.fetchSteps marker runIds with
      | .resolved runId => .resolved runId
      | .fatal msg => .failed msg
      | .exhausted => engineGo env marker timeoutMs (k + 1)
  else .failed timeoutEngineMsg
termination_by timeoutMs.toNat / 5000 + 2 - k
decreasing_by
  have h5 : ∀ n, 5000 * n ≤ elapsedAt env n := by
    intro n
    induction n with
    | zero => simp [elapsedAt]
    | succ n ih =>
      rw [elapsedAt]
      omega
  have h6 := h5 (k - 1)
  omega

/-- `applyWorkflowRunId` from `dispatch.ts` (resolution engine): run the
search loop from cycle `0` with zero elapsed time, where `marker` is the
correlation marker (`config.commitId`) and `timeoutMs` the overall budget. -/
def applyWorkflowRunId (env : EngineEnv) (marker : String) (timeoutMs : Int) :
    EngineResult :=
  engineGo env marker timeoutMs 0

/-- The query parameters of the run-listing call built by
`getWorkflowRunIds`: optional branch scope and page size. -/
structure ListRunsParams where
  branch : Option String
  perPage : Nat
deriving DecidableEq

/-- The parameter construction of `getWorkflowRunIds` from `dispatch.ts`:
when a branch name is derived from the ref, scope to it with page size 5,
otherwise no branch scope with page size 10. -/
def runListingParams (ref : String) : ListRunsParams :=
  match getBranchName ref with
  | some b => ⟨some b, 5⟩
  | none => ⟨none, 10⟩

/-- `getWorkflowRunIds` from `dispatch.ts`: build the query parameters from
the dispatch ref, call the platform's run-listing endpoint with them
(`platform` maps parameters to a response of status code and run-id list),
fail on a non-200 status, otherwise return the run ids. -/
def getWorkflowRunIds (ref : String) (platform : ListRunsParams → Nat × List Nat) :
    Except String (List Nat) :=
  if (platform (runListingParams ref)).1 ≠ 200 then
    .error ("Failed to get Workflow runs, expected 200 but received " ++
      toString (platform (runListingParams ref)).1)
  else .ok (platform (runListingParams ref)).2

/-- One job of a run's latest attempt, as used by `getWorkflowRunJobSteps`:
the `steps` field may be absent (`job.steps` undefined). -/
structure Job where
  id : Nat
  steps : Option (List String)

/-- `job.steps?.map((step) => step.name) || []` from `dispatch.ts`. -/
def jobStepNames (j : Job) : List String := j.steps.getD []

/-- Model of `Array.from(new Set(xs))` for a string array: keep the first
occurrence of each element, in insertion order. -/
def jsSetDedup : List String → List String
  | [] => []
  | x :: xs => x :: jsSetDedup (xs.filter (fun y => y ≠ x))
termination_by l => l.length
decreasing_by
  have := List.length_filter_le (fun y => decide (y ≠ x)) xs
  simp only [List.length_cons]
  omega

/-- All step names of a job list, flattened across jobs in order, as the
`forEach`/`push` loop of `getWorkflowRunJobSteps` accumulates them. -/
def allStepNames (jobs : List Job) : List String :=
  (jobs.map jobStepNames).flatten

/-- `getWorkflowRunJobSteps` from `dispatch.ts`: given the response of the
list-jobs endpoint for a run's latest attempt (status code and job list),
fail on a non-200 status, otherwise flatten all step names across all jobs
and de-duplicate them via `Array.from(new Set(allSteps))`. -/
def getWorkflowRunJobSteps (response : Nat × List Job) : Except String (List String) :=
  if response.1 ≠ 200 then
    .error ("Failed to get Workflow Run Jobs, expected 200 but received " ++ toString response.1)
  else .ok (jsSetDedup (allStepNames response.2))

/-- Index of the first occurrence of `a` in a string list (the length of
the list when `a` is absent). -/
def firstIdx (a : String) : List String → Nat
  | [] => 0
  | x :: xs => if x = a then 0 else firstIdx a xs + 1

/-- Model of JavaScript `s.endsWith(suf)` at the character level. -/
def jsEndsWith (s suf : String) : Bool :=
  decide (s.data.drop (s.data.length - suf.data.length) = suf.data)

/-- Outcome of the top-level `run` task. -/
inductive RunOutcome where
  | completed
  | warnedDisabled
  | failed (msg : String)
deriving DecidableEq

/-- The `catch` handler of the top-level `run` task: an error whose message
ends with "a disabled workflow" produces only a warning and a normal
return (benign no-op); any other error marks the operation failed with its
message. -/
def runCatchHandler (msg : String) : RunOutcome :=
  if jsEndsWith msg ("a disabled workflow") then .warnedDisabled
  else .failed msg

/-- The top-level `run` task reduced to its error boundary: a dispatch
phase that either succeeds or throws an error message, followed by the
`catch` handler above. -/
def runTask (dispatchPhase : Except String Unit) : RunOutcome :=
  match dispatchPhase with
  | .ok _ => .completed
  | .error msg => runCatchHandler msg

/-- No step of the candidate's inspected step set matches the marker: the
inspection either throws "Not Found" (swallowed) or yields only
non-matching step names. -/
def candidateNoMatch (fetch : Nat → Except String (List String)) (marker : String)
    (id : Nat) : Prop :=
  fetch id = .error notFoundMsg ∨
    ∃ l, fetch id = .ok l ∧ ∀ s ∈ l, regexTest marker s = false

/-- The candidate's step set contains a step matching the marker. -/
def candidateMatches (fetch : Nat → Except String (List String)) (marker : String)
    (id : Nat) : Prop :=
  ∃ l, fetch id = .ok l ∧ ∃ s ∈ l, regexTest marker s = true

/-- Environment of the C1 witness scenario (spec §8: candidates 101 and
102, only 102's steps contain the marker). -/
def c1env : EngineEnv :=
  ⟨fun _ _ => .ok [101, 102],
   fun id => if id = 102 then .ok ["checkout", "echo M1 done"]
             else .ok ["checkout", "build"],
   fun _ => 0⟩

/-- Environment of the C4 witness scenario: one candidate, never matching. -/
def c4env : EngineEnv :=
  ⟨fun _ _ => .ok [1], fun _ => .ok ["build"], fun _ => 0⟩

/-- Step-inspection behaviour of the C5 witness scenario: run 1 throws
"Not Found", every other run throws a distinct error. -/
def c5fetch : Nat → Except String (List String) :=
  fun id => if id = 1 then .error notFoundMsg else .error ("Boom")

/-- Environment of the C5 witness scenario. -/
def c5env : EngineEnv :=
  ⟨fun _ _ => .ok [1, 2], c5fetch, fun _ => 0⟩

/-- Environment of the enumeration-failure part of the C5 witness: every
`getWorkflowRunIds` call throws its non-200 failure. -/
def c5enumFailEnv : EngineEnv :=
  ⟨fun _ _ => .error ("Failed to get Workflow runs, expected 200 but received 500"),
   fun _ => .ok [], fun _ => 0⟩

/-- Environment of the C2 counterexample: the first search cycle spends
15000 ms in remote calls, hence 20000 ms total with its backoff sleep. -/
def envC2 : EngineEnv :=
  ⟨fun _ _ => .ok [1], fun _ => .ok [], fun _ => 15000⟩

/-! Helper lemmas shared by the claim theorems. -/

theorem startsList_self_append (m post : List Char) :
    startsList m (m ++ post) = true := by
  induction m with
  | nil => rfl
  | cons c cs ih => simp [startsList, ih]

theorem containsList_append (m pre post : List Char) :
    containsList m (pre ++ (m ++ post)) = true := by
  induction pre with
  | nil =>
    cases h : m ++ post with
    | nil =>
      have hm : m = [] := by
        cases m with
        | nil => rfl
        | cons c cs => simp at h
      simp [hm, containsList, startsList]
    | cons c cs =>
      simp only [List.nil_append, h, containsList]
      rw [← h, startsList_self_append]
      simp
  | cons c cs ih =>
    show (startsList m (c :: (cs ++ (m ++ post))) || containsList m (cs ++ (m ++ post))) = true
    rw [ih]
    simp

theorem retryOrDieGo_snd_ge {α : Type} (producer : Nat → Except String (List α))
    (timeoutMs : Int) (k : Nat) : k ≤ (retryOrDieGo producer timeoutMs k).2 := by
  induction k using retryOrDieGo.induct producer timeoutMs with
  | case1 k hcond msg herr =>
    rw [retryOrDieGo, if_pos hcond, herr]
    show k ≤ k + 1
    omega
  | case2 k hcond response hok hlen =>
    rw [retryOrDieGo, if_pos hcond, hok]
    simp only [hlen, ite_true, if_pos]
    omega
  | case3 k hcond response hok hlen ih =>
    rw [retryOrDieGo, if_pos hcond, hok]
    simp only [hlen, ite_false]
    omega
  | case4 k hcond =>
    rw [retryOrDieGo, if_neg hcond]

theorem elapsedAt_ge (env : EngineEnv) (k : Nat) : 5000 * k ≤ elapsedAt env k := by
  induction k with
  | zero => simp [elapsedAt]
  | succ k ih =>
    rw [elapsedAt]
    omega

theorem dropExact_append (pre rest : List Char) :
    dropExact pre (pre ++ rest) = some rest := by
  induction pre with
  | nil => rfl
  | cons c cs ih => simp [dropExact, ih]

theorem dropExact_eq_some {pre s rest : List Char}
    (h : dropExact pre s = some rest) : s = pre ++ rest := by
  induction pre generalizing s with
  | nil =>
    simp only [dropExact, Option.some.injEq] at h
    simp [h]
  | cons c cs ih =>
    cases s with
    | nil => simp [dropExact] at h
    | cons d ds =>
      simp only [dropExact] at h
      by_cases hd : d = c
      · rw [if_pos hd] at h
        have := ih h
        simp [hd, this]
      · rw [if_neg hd] at h
        exact absurd h (by simp)

theorem getBranchName_eq_some (ref b : String) :
    getBranchName ref = some b ↔ ref = refsHeads ++ b := by
  constructor
  · intro h
    simp only [getBranchName, Option.map_eq_some'] at h
    obtain ⟨rest, hdrop, hmk⟩ := h
    have hdata : ref.data = refsHeads.data ++ rest := dropExact_eq_some hdrop
    apply String.ext
    rw [String.data_append, hdata, ← hmk]
  · intro h
    subst h
    rw [getBranchName, String.data_append, dropExact_append]
    cases b with
    | mk l => rfl

theorem firstIdx_cons_self (a : String) (xs : List String) :
    firstIdx a (a :: xs) = 0 := by
  simp [firstIdx]

theorem firstIdx_cons_ne {x a : String} (h : x ≠ a) (xs : List String) :
    firstIdx a (x :: xs) = firstIdx a xs + 1 := by
  simp [firstIdx, h]

theorem jsSetDedup_mem (l : List String) (a : String) :
    a ∈ jsSetDedup l ↔ a ∈ l := by
  induction l using jsSetDedup.induct with
  | case1 => simp [jsSetDedup]
  | case2 x xs ih =>
    rw [jsSetDedup]
    simp only [List.mem_cons, ih, List.mem_filter, decide_eq_true_eq]
    constructor
    · rintro (rfl | ⟨h, _⟩)
      · exact Or.inl rfl
      · exact Or.inr h
    · rintro (rfl | h)
      · exact Or.inl rfl
      · by_cases hax : a = x
        · exact Or.inl hax
        · exact Or.inr ⟨h, hax⟩

theorem jsSetDedup_nodup (l : List String) : (jsSetDedup l).Nodup := by
  induction l using jsSetDedup.induct with
  | case1 => simp [jsSetDedup]
  | case2 x xs ih =>
    rw [jsSetDedup]
    refine List.nodup_cons.mpr ⟨?_, ih⟩
    intro hx
    rw [jsSetDedup_mem] at hx
    have := List.mem_filter.mp hx
    simp at this

theorem firstIdx_filter_mono (p : String → Bool) (l : List String) :
    ∀ {a b : String}, a ∈ l.filter p → b ∈ l.filter p →
      firstIdx a (l.filter p) < firstIdx b (l.filter p) →
      firstIdx a l < firstIdx b l := by
  induction l with
  | nil =>
    intro a b ha
    simp at ha
  | cons c rest ih =>
    intro a b ha hb hlt
    by_cases hp : p c
    · rw [List.filter_cons_of_pos hp] at ha hb hlt
      by_cases hca : c = a
      · subst hca
        by_cases hcb : c = b
        · subst hcb
          rw [firstIdx_cons_self] at hlt
          omega
        · rw [firstIdx_cons_self, firstIdx_cons_ne hcb]
          omega
      · by_cases hcb : c = b
        · subst hcb
          rw [firstIdx_cons_self c] at hlt
          omega
        · rw [firstIdx_cons_ne hca, firstIdx_cons_ne hcb] at hlt
          have ha' : a ∈ rest.filter p := by
            rcases List.mem_cons.mp ha with h | h
            · exact absurd h.symm hca
            · exact h
          have hb' : b ∈ rest.filter p := by
            rcases List.mem_cons.mp hb with h | h
            · exact absurd h.symm hcb
            · exact h
          have := ih ha' hb' (by omega)
          rw [firstIdx_cons_ne hca, firstIdx_cons_ne hcb]
          omega
    · rw [List.filter_cons_of_neg hp] at ha hb hlt
      have hca : c ≠ a := by
        intro h
        subst h
        exact hp (List.mem_filter.mp ha).2
      have hcb : c ≠ b := by
        intro h
        subst h
        exact hp (List.mem_filter.mp hb).2
      have := ih ha hb hlt
      rw [firstIdx_cons_ne hca, firstIdx_cons_ne hcb]
      omega

theorem jsSetDedup_pairwise (l : List String) :
    (jsSetDedup l).Pairwise (fun a b => firstIdx a l < firstIdx b l) := by
  induction l using jsSetDedup.induct with
  | case1 => simp [jsSetDedup]
  | case2 x xs ih =>
    rw [jsSetDedup]
    refine List.pairwise_cons.mpr ⟨?_, ?_⟩
    · intro b hb
      have hbf := (jsSetDedup_mem _ _).mp hb
      have hbx : x ≠ b := by
        have := List.mem_filter.mp hbf
        simp only [decide_eq_true_eq] at this
        exact fun h => this.2 h.symm
      rw [firstIdx_cons_self, firstIdx_cons_ne hbx]
      omega
    · refine ih.imp_of_mem ?_
      intro a b ha hb hlt
      have haf := (jsSetDedup_mem _ _).mp ha
      have hbf := (jsSetDedup_mem _ _).mp hb
      have hax : x ≠ a := by
        have := List.mem_filter.mp haf
        simp only [decide_eq_true_eq] at this
        exact fun h => this.2 h.symm
      have hbx : x ≠ b := by
        have := List.mem_filter.mp hbf
        simp only [decide_eq_true_eq] at this
        exact fun h => this.2 h.symm
      have hxs := firstIdx_filter_mono (fun y => decide (y ≠ x)) xs haf hbf hlt
      rw [firstIdx_cons_ne hax, firstIdx_cons_ne hbx]
      omega

theorem fetchTimeout_pos {timeoutMs : Int} (h : 0 < timeoutMs) :
    0 < fetchTimeout timeoutMs := by
  rw [fetchTimeout]
  split <;> omega

theorem retryOrDieGo_fst_ok {α : Type} {producer : Nat → Except String (List α)}
    {t : Int} {ids : List α} (h0 : producer 0 = .ok ids) (hne : ids ≠ [])
    (ht : 0 < t) : (retryOrDieGo producer t 0).1 = .ok ids := by
  rw [retryOrDieGo, if_pos (by simp [prevElapsedMs]; omega), h0]
  have hlen : 0 < ids.length := List.length_pos.mpr hne
  simp [hlen]

theorem retryOrDieGo_fst_thrown {α : Type} {producer : Nat → Except String (List α)}
    {t : Int} {msg : String} (h0 : producer 0 = .error msg) (ht : 0 < t) :
    (retryOrDieGo producer t 0).1 = .error (.thrown msg) := by
  rw [retryOrDieGo, if_pos (by simp [prevElapsedMs]; omega), h0]

theorem scanCandidates_cons_noMatch {fetch : Nat → Except String (List String)}
    {marker : String} {id : Nat} (rest : List Nat)
    (h : candidateNoMatch fetch marker id) :
    scanCandidates fetch marker (id :: rest) = scanCandidates fetch marker rest := by
  rcases h with h | ⟨l, hok, hall⟩
  · simp [scanCandidates, h]
  · have hfind : l.find? (fun step => regexTest marker step) = none :=
      List.find?_eq_none.mpr fun x hx => by simp [hall x hx]
    simp [scanCandidates, hok, hfind]

theorem scanCandidates_resolves {fetch : Nat → Except String (List String)}
    {marker : String} (pre : List Nat) (idStar : Nat) (post : List Nat)
    (hpre : ∀ id ∈ pre, candidateNoMatch fetch marker id)
    (hstar : candidateMatches fetch marker idStar) :
    scanCandidates fetch marker (pre ++ idStar :: post) = .resolved idStar := by
  induction pre with
  | nil =>
    obtain ⟨l, hok, s, hs, htest⟩ := hstar
    cases hfind : l.find? (fun step => regexTest marker step) with
    | none =>
      have := List.find?_eq_none.mp hfind s hs
      simp [htest] at this
    | some st =>
      simp [scanCandidates, hok, hfind]
  | cons c cs ih =>
    rw [List.cons_append, scanCandidates_cons_noMatch _ (hpre c (by simp))]
    exact ih fun id hid => hpre id (by simp [hid])

theorem scanCandidates_exhausted {fetch : Nat → Except String (List String)}
    {marker : String} (ids : List Nat)
    (h : ∀ id ∈ ids, candidateNoMatch fetch marker id) :
    scanCandidates fetch marker ids = .exhausted := by
  induction ids with
  | nil => rfl
  | cons c cs ih =>
    rw [scanCandidates_cons_noMatch _ (h c (by simp))]
    exact ih fun id hid => h id (by simp [hid])

theorem retryOrDieGo_ok_of_eventually {α : Type}
    (producer : Nat → Except String (List α)) (t : Int) (N : Nat) (r : List α)
    (hempty : ∀ i, i < N → producer i = .ok [])
    (hN : producer N = .ok r) (hne : r ≠ [])
    (ht : ((N * 1000 : Nat) : Int) < t) :
    ∀ d k, k + d = N → retryOrDieGo producer t k = (.ok r, N + 1) := by
  intro d
  induction d with
  | zero =>
    intro k hk
    have hkN : k = N := by omega
    subst hkN
    rw [retryOrDieGo, if_pos (by simp only [prevElapsedMs]; push_cast at ht ⊢; omega),
      hN]
    have hlen : 0 < r.length := List.length_pos.mpr hne
    simp [hlen]
  | succ d ih =>
    intro k hk
    have hkN : k < N := by omega
    rw [retryOrDieGo, if_pos (by simp only [prevElapsedMs]; push_cast at ht ⊢; omega),
      hempty k hkN]
    simp only [List.length_nil, lt_irrefl, ite_false]
    exact ih (k + 1) (by omega)

theorem retryOrDieGo_empty {α : Type} (producer : Nat → Except String (List α))
    (t : Int) (hempty : ∀ i, producer i = .ok []) (k : Nat) :
    (retryOrDieGo producer t k).1 = .error .timeout ∧
    t ≤ (prevElapsedMs (retryOrDieGo producer t k).2 : Int) := by
  induction k using retryOrDieGo.induct producer t with
  | case1 k hcond msg herr =>
    rw [hempty k] at herr
    exact absurd herr (by simp)
  | case2 k hcond response hok hlen =>
    have h := (hempty k).symm.trans hok
    injection h with h2
    rw [← h2] at hlen
    simp at hlen
  | case3 k hcond response hok hlen ih =>
    rw [retryOrDieGo, if_pos hcond, hok]
    simp only [hlen, ite_false]
    exact ih
  | case4 k hcond =>
    rw [retryOrDieGo, if_neg hcond]
    refine ⟨rfl, ?_⟩
    show t ≤ (prevElapsedMs k : Int)
    omega

theorem jsEndsWith_append (pre suf : String) :
    jsEndsWith (pre ++ suf) suf = true := by
  rw [jsEndsWith, decide_eq_true_eq, String.data_append]
  have hlen : (pre.data ++ suf.data).length - suf.data.length = pre.data.length := by
    rw [List.length_append]
    omega
  rw [hlen, List.drop_left]

theorem engineGo_all_noMatch (env : EngineEnv) (marker : String) (timeoutMs : Int)
    (hprod : ∀ k, ∃ ids, env.enumProducer k 0 = .ok ids ∧ ids ≠ [])
    (hnomatch : ∀ id, candidateNoMatch env.fetchSteps marker id) :
    ∀ k, engineGo env marker timeoutMs k = .failed timeoutEngineMsg := by
  have ht : ∀ k : Nat, ((elapsedAt env (k - 1) : Nat) : Int) < timeoutMs → 0 < timeoutMs := by
    intro k h
    omega
  intro k
  induction k using engineGo.induct env marker timeoutMs with
  | case1 k hcond hret =>
    obtain ⟨ids, hok0, hne0⟩ := hprod k
    rw [retryOrDieGo_fst_ok hok0 hne0 (fetchTimeout_pos (ht k hcond))] at hret
    exact absurd hret (by simp)
  | case2 k hcond msg hret =>
    obtain ⟨ids, hok0, hne0⟩ := hprod k
    rw [retryOrDieGo_fst_ok hok0 hne0 (fetchTimeout_pos (ht k hcond))] at hret
    exact absurd hret (by simp)
  | case3 k hcond runIds hok runId hres =>
    rw [scanCandidates_exhausted runIds fun id _ => hnomatch id] at hres
    exact absurd hres (by simp)
  | case4 k hcond runIds hok msg hfatal =>
    rw [scanCandidates_exhausted runIds fun id _ => hnomatch id] at hfatal
    exact absurd hfatal (by simp)
  | case5 k hcond runIds hok hexh ih =>
    rw [engineGo, if_pos hcond]
    simp only [hok]
    simp only [hexh]
    exact ih
  | case6 k hcond =>
    rw [engineGo, if_neg hcond]

/-! Claim theorems. -/

/-- C1: for every enumerated candidate sequence decomposed as
`pre ++ idStar :: post` where no candidate in `pre` matches the correlation
marker and `idStar`'s step set does, `applyWorkflowRunId` resolves to
`idStar` (emits it as the run-id output) regardless of `idStar`'s position:
`pre` and `post` are arbitrary, candidates are inspected in platform order,
and the candidates of `post` are entirely unconstrained because the engine
stops at the first match without inspecting them. -/
theorem applyWorkflowRunId_resolves_unique_match (env : EngineEnv) (marker : String)
    (timeoutMs : Int) (pre : List Nat) (idStar : Nat) (post : List Nat)
    (ht : 0 < timeoutMs)
    (henum : env.enumProducer 0 0 = .ok (pre ++ idStar :: post))
    (hpre : ∀ id ∈ pre, candidateNoMatch env.fetchSteps marker id)
    (hstar : candidateMatches env.fetchSteps marker idStar) :
    applyWorkflowRunId env marker timeoutMs = .resolved idStar := by
  rw [applyWorkflowRunId, engineGo, if_pos (by simp [elapsedAt]; omega)]
  rw [retryOrDieGo_fst_ok henum (by simp) (fetchTimeout_pos ht)]
  simp only [scanCandidates_resolves pre idStar post hpre hstar]

/-- Witness for C1, instantiating the spec's scenario: marker `M1`,
candidates `[101, 102]`, run 101 with steps `checkout, build`, run 102 with
steps `checkout, echo M1 done`; the engine resolves to 102. -/
theorem applyWorkflowRunId_resolves_unique_match_witness :
    applyWorkflowRunId c1env ("M1") 10000 = .resolved 102 :=
  applyWorkflowRunId_resolves_unique_match c1env ("M1") 10000 [101] 102 []
    (by decide) rfl
    (fun id hid => by
      simp only [List.mem_singleton] at hid
      subst hid
      exact Or.inr ⟨["checkout", "build"], rfl, by decide⟩)
    ⟨["checkout", "echo M1 done"], rfl, "echo M1 done", by decide, by decide⟩

/-- C4: if candidates are always enumerated but no candidate's step set
ever matches the correlation marker, `applyWorkflowRunId` terminates with
the overall-timeout failure (the operation is marked failed) and no run id
is emitted; per the model (`engineGo`, `elapsedAt`) each cycle ends with
the fixed 5000 ms backoff sleep and the next cycle re-enumerates from
scratch. -/
theorem applyWorkflowRunId_timeout_no_match (env : EngineEnv) (marker : String)
    (timeoutMs : Int)
    (hprod : ∀ k, ∃ ids, env.enumProducer k 0 = .ok ids ∧ ids ≠ [])
    (hnomatch : ∀ id, candidateNoMatch env.fetchSteps marker id) :
    applyWorkflowRunId env marker timeoutMs = .failed timeoutEngineMsg ∧
    ∀ id, applyWorkflowRunId env marker timeoutMs ≠ .resolved id := by
  have h := engineGo_all_noMatch env marker timeoutMs hprod hnomatch 0
  refine ⟨h, fun id => ?_⟩
  rw [applyWorkflowRunId, h]
  simp

/-- Witness for C4: one candidate whose only step never matches; the
engine fails with the overall timeout message. -/
theorem applyWorkflowRunId_timeout_no_match_witness :
    applyWorkflowRunId c4env ("M1") 7000 = .failed timeoutEngineMsg :=
  (applyWorkflowRunId_timeout_no_match c4env ("M1") 7000
    (fun _ => ⟨[1], rfl, by decide⟩)
    (fun _ => Or.inr ⟨["build"], rfl, by decide⟩)).1

/-- C5: a "Not Found" failure while inspecting one candidate is swallowed
and the per-candidate loop continues with the next candidate of the same
cycle; any inspection failure with a different message is fatal, and a
fatal scan aborts the whole resolution as a failed operation; likewise a
non-"Not Found" failure thrown by the enumeration call itself propagates
uncaught through the Retry Envelope and aborts the whole resolution as a
failed operation. -/
theorem notFound_swallowed_other_failures_fatal :
    (∀ (fetch : Nat → Except String (List String)) (marker : String) (id : Nat)
       (rest : List Nat), fetch id = .error notFoundMsg →
       scanCandidates fetch marker (id :: rest) = scanCandidates fetch marker rest) ∧
    (∀ (fetch : Nat → Except String (List String)) (marker : String) (id : Nat)
       (rest : List Nat) (msg : String), fetch id = .error msg → msg ≠ notFoundMsg →
       scanCandidates fetch marker (id :: rest) = .fatal msg) ∧
    (∀ (env : EngineEnv) (marker : String) (timeoutMs : Int) (msg : String)
       (ids : List Nat),
       0 < timeoutMs → env.enumProducer 0 0 = .ok ids → ids ≠ [] →
       scanCandidates env.fetchSteps marker ids = .fatal msg →
       applyWorkflowRunId env marker timeoutMs = .failed msg) ∧
    (∀ (env : EngineEnv) (marker : String) (timeoutMs : Int) (msg : String),
       0 < timeoutMs → msg ≠ notFoundMsg → env.enumProducer 0 0 = .error msg →
       applyWorkflowRunId env marker timeoutMs = .failed msg) := by
  refine ⟨?_, ?_, ?_, ?_⟩
  · intro fetch marker id rest h
    exact scanCandidates_cons_noMatch rest (Or.inl h)
  · intro fetch marker id rest msg h hne
    simp [scanCandidates, h, hne]
  · intro env marker timeoutMs msg ids ht hok hne hfatal
    rw [applyWorkflowRunId, engineGo, if_pos (by simp [elapsedAt]; omega)]
    rw [retryOrDieGo_fst_ok hok hne (fetchTimeout_pos ht)]
    simp only [hfatal]
  · intro env marker timeoutMs msg ht hmsg herr
    rw [applyWorkflowRunId, engineGo, if_pos (by simp [elapsedAt]; omega)]
    rw [retryOrDieGo_fst_thrown herr (fetchTimeout_pos ht)]

/-- Witness for C5: candidate 1 throws "Not Found" and is skipped, the
loop continues to candidate 2, whose distinct failure is fatal and makes
the whole resolution fail; an enumeration call throwing its non-200
failure also makes the whole resolution fail with that message. -/
theorem notFound_swallowed_other_failures_fatal_witness :
    scanCandidates c5fetch ("M") [1, 2] = scanCandidates c5fetch ("M") [2] ∧
    scanCandidates c5fetch ("M") [2] = .fatal ("Boom") ∧
    applyWorkflowRunId c5env ("M") 9000 = .failed ("Boom") ∧
    applyWorkflowRunId c5enumFailEnv ("M") 9000 =
      .failed ("Failed to get Workflow runs, expected 200 but received 500") :=
  ⟨notFound_swallowed_other_failures_fatal.1 c5fetch ("M") 1 [2] rfl,
   notFound_swallowed_other_failures_fatal.2.1 c5fetch ("M") 2 [] ("Boom") rfl
     (by decide),
   notFound_swallowed_other_failures_fatal.2.2.1 c5env ("M") 9000 ("Boom") [1, 2]
     (by decide) rfl (by decide) (by decide),
   notFound_swallowed_other_failures_fatal.2.2.2 c5enumFailEnv ("M") 9000
     ("Failed to get Workflow runs, expected 200 but received 500")
     (by decide) (by decide) rfl⟩

/-- C3: a producer that is empty for its first `N` invocations and
non-empty at invocation `N`, with `N` one-second backoffs strictly below
`timeoutMs`, makes `retryOrDie` return that non-empty sequence; a producer
that always returns an empty sequence makes `retryOrDie` fail with the
`Timeout` error, at a point where the modelled elapsed time (one 1000 ms
backoff per empty result) has reached `timeoutMs`. -/
theorem retryOrDie_retry_behaviour {α : Type} :
    (∀ (producer : Nat → List α) (timeoutMs : Int) (N : Nat),
       (∀ i, i < N → producer i = []) → producer N ≠ [] →
       ((N * 1000 : Nat) : Int) < timeoutMs →
       (retryOrDie producer timeoutMs).1 = .ok (producer N)) ∧
    (∀ (producer : Nat → List α) (timeoutMs : Int),
       (∀ i, producer i = []) →
       (retryOrDie producer timeoutMs).1 = .error .timeout ∧
       timeoutMs ≤ (prevElapsedMs (retryOrDie producer timeoutMs).2 : Int)) := by
  constructor
  · intro producer timeoutMs N hempty hne ht
    rw [retryOrDie]
    have h := retryOrDieGo_ok_of_eventually (fun i => .ok (producer i)) timeoutMs N
      (producer N)
      (fun i hi => by
        show Except.ok (producer i) = Except.ok []
        rw [hempty i hi])
      rfl hne ht N 0 (by omega)
    rw [h]
  · intro producer timeoutMs hempty
    exact retryOrDieGo_empty (fun i => .ok (producer i)) timeoutMs
      (fun i => by
        show Except.ok (producer i) = Except.ok []
        rw [hempty i]) 0

/-- Witness for C3: a producer empty for 2 calls and then `[7]`, with a
5-second budget, yields `[7]`; an always-empty producer with a 2.5-second
budget times out. -/
theorem retryOrDie_retry_behaviour_witness :
    (retryOrDie (fun i => if i < 2 then ([] : List Nat) else [7]) 5000).1 = .ok [7] ∧
    (retryOrDie (fun _ => ([] : List Nat)) 2500).1 = .error .timeout := by
  constructor
  · have h := (retryOrDie_retry_behaviour (α := Nat)).1
      (fun i => if i < 2 then ([] : List Nat) else [7]) 5000 2
      (fun i hi => by simp [hi]) (by decide) (by decide)
    simpa using h
  · exact ((retryOrDie_retry_behaviour (α := Nat)).2 (fun _ => ([] : List Nat)) 2500
      (fun _ => rfl)).1

/-- C10: for `timeoutMs ≤ 0` the elapsed-time condition fails before the
first call, so `retryOrDie` throws the Timeout error with zero producer
invocations; for `timeoutMs > 0` the producer is invoked at least once
(the invocation count is the second component of the model's result). -/
theorem retryOrDie_nonpositive_timeout {α : Type} (producer : Nat → List α)
    (timeoutMs : Int) :
    (timeoutMs ≤ 0 → retryOrDie producer timeoutMs = (.error .timeout, 0)) ∧
    (0 < timeoutMs → 1 ≤ (retryOrDie producer timeoutMs).2) := by
  constructor
  · intro h
    rw [retryOrDie, retryOrDieGo, if_neg (by simp [prevElapsedMs]; omega)]
  · intro h
    rw [retryOrDie, retryOrDieGo, if_pos (by simp [prevElapsedMs]; omega)]
    by_cases hlen : 0 < (producer 0).length
    · simp [hlen]
    · simp only [hlen, ite_false]
      have := retryOrDieGo_snd_ge (fun i => .ok (producer i)) timeoutMs 1
      exact this

/-- Witness for C10: with a negative budget the producer result is
irrelevant and no call is made; with a positive budget at least one call
is made. -/
theorem retryOrDie_nonpositive_timeout_witness :
    retryOrDie (fun _ => [(1 : Nat)]) (-5) = (.error .timeout, 0) ∧
    1 ≤ (retryOrDie (fun _ => [(1 : Nat)]) 7).2 :=
  ⟨(retryOrDie_nonpositive_timeout (fun _ => [(1 : Nat)]) (-5)).1 (by decide),
   (retryOrDie_nonpositive_timeout (fun _ => [(1 : Nat)]) 7).2 (by decide)⟩

/-- C7: the marker-membership test is a substring search, not exact
equality: for every regex-safe marker and every step name of the form
`pre ++ marker ++ post`, the test succeeds, and whenever `pre` is non-empty
the step name differs from the marker. -/
theorem regexTest_is_substring_search (marker pre post : String) :
    regexTest marker (pre ++ (marker ++ post)) = true ∧
    (pre ≠ "" → pre ++ (marker ++ post) ≠ marker) := by
  constructor
  · rw [regexTest, String.data_append, String.data_append]
    exact containsList_append marker.data pre.data post.data
  · intro hpre heq
    apply hpre
    have hlen : (pre ++ (marker ++ post)).length = marker.length := by rw [heq]
    rw [String.length_append, String.length_append] at hlen
    have hz : pre.length = 0 := by omega
    have hd : pre.data = [] := List.eq_nil_of_length_eq_zero hz
    exact String.ext hd

/-- Witness for C7: the step name `echo M1 done` embeds the marker `M1` as
a proper substring; the test succeeds although the step name is not equal
to the marker. -/
theorem regexTest_is_substring_search_witness :
    regexTest ("M1") ("echo " ++ (("M1") ++ (" done"))) = true ∧
    ("echo " ++ (("M1") ++ (" done"))) ≠ ("M1" : String) :=
  ⟨(regexTest_is_substring_search ("M1") ("echo ") (" done")).1,
   (regexTest_is_substring_search ("M1") ("echo ") (" done")).2 (by decide)⟩

/-- C9: a dispatch error whose message ends with "a disabled workflow"
makes the top-level task complete as a benign warning, not as a failure;
any other top-level error marks the operation failed with its message. -/
theorem disabled_workflow_benign (pre msg : String) :
    runTask (.error (pre ++ ("a disabled workflow"))) = .warnedDisabled ∧
    runTask (.error (pre ++ ("a disabled workflow"))) ≠
      .failed (pre ++ ("a disabled workflow")) ∧
    (jsEndsWith msg ("a disabled workflow") = false →
      runTask (.error msg) = .failed msg) := by
  refine ⟨?_, ?_, ?_⟩
  · rw [runTask, runCatchHandler, if_pos (jsEndsWith_append pre _)]
  · rw [runTask, runCatchHandler, if_pos (jsEndsWith_append pre _)]
    simp
  · intro h
    rw [runTask, runCatchHandler, if_neg (by simp [h])]

/-- Witness for C9: the message `This API endpoint refers to a disabled
workflow` is benign; the message `Boom` marks the operation failed. -/
theorem disabled_workflow_benign_witness :
    runTask (.error (("This API endpoint refers to ") ++ ("a disabled workflow"))) =
      .warnedDisabled ∧
    runTask (.error ("Boom")) = .failed ("Boom") :=
  ⟨(disabled_workflow_benign ("This API endpoint refers to ") ("Boom")).1,
   (disabled_workflow_benign ("This API endpoint refers to ") ("Boom")).2.2
     (by decide)⟩

/-- C2 is false as stated: the enumeration budget each search cycle passes
to the Retry Envelope is `fetchTimeout timeoutMs`, computed from the
overall timeout alone.  Concretely, with overall timeout 70000 ms and an
environment whose first cycle consumes 20000 ms, the second cycle is
entered (its while-condition reads the first cycle's elapsed value 0) with
20000 ms already elapsed, yet the budget passed is 60000 ms, while
min(60 s, remaining overall budget) = min(60000, 70000 - 20000) = 50000. -/
theorem enumeration_budget_counterexample :
    elapsedAt envC2 1 = 20000 ∧
    (elapsedAt envC2 0 : Int) < 70000 ∧
    fetchTimeout 70000 = 60000 ∧
    min (60000 : Int) (70000 - (elapsedAt envC2 1 : Int)) = 50000 ∧
    fetchTimeout 70000 ≠ min (60000 : Int) (70000 - (elapsedAt envC2 1 : Int)) := by
  refine ⟨?_, ?_, ?_, ?_, ?_⟩ <;> simp [elapsedAt, envC2, fetchTimeout]

/-- C2 (amended): in every search cycle the enumeration budget passed to
the Retry Envelope equals min(60 s, overall timeout) — `engineGo` passes
`fetchTimeout timeoutMs` to `retryOrDie`, independent of the elapsed
time, so it equals min(60 s, remaining overall budget) only while nothing
has elapsed. -/
theorem enumeration_budget_eq_min (timeoutMs : Int) :
    fetchTimeout timeoutMs = min 60000 timeoutMs := by
  rw [fetchTimeout]
  split <;> omega

/-- C6: a ref of the form `refs/heads/<branch>` derives exactly the branch
`<branch>` (and no other ref shape derives a branch), in which case the
run-listing query is scoped to that branch with page size 5; for every ref
deriving no branch the query is unscoped with page size 10; a non-200
response status makes `getWorkflowRunIds` fail. -/
theorem getWorkflowRunIds_branch_scoping (ref b : String)
    (platform : ListRunsParams → Nat × List Nat) :
    (getBranchName ref = some b ↔ ref = refsHeads ++ b) ∧
    (ref = refsHeads ++ b → runListingParams ref = ⟨some b, 5⟩) ∧
    (getBranchName ref = none → runListingParams ref = ⟨none, 10⟩) ∧
    ((platform (runListingParams ref)).1 ≠ 200 →
      getWorkflowRunIds ref platform =
        .error (("Failed to get Workflow runs, expected 200 but received ") ++
          toString (platform (runListingParams ref)).1)) := by
  refine ⟨getBranchName_eq_some ref b, ?_, ?_, ?_⟩
  · intro h
    rw [runListingParams, (getBranchName_eq_some ref b).mpr h]
  · intro h
    rw [runListingParams, h]
  · intro h
    rw [getWorkflowRunIds, if_pos h]

/-- Witness for C6: `refs/heads/main` scopes to branch `main` with page
size 5, the tag ref `refs/tags/v1.0` yields no branch and the unscoped
page size 10, and a 500 status fails the call. -/
theorem getWorkflowRunIds_branch_scoping_witness :
    runListingParams ("refs/heads/main") = ⟨some ("main"), 5⟩ ∧
    runListingParams ("refs/tags/v1.0") = ⟨none, 10⟩ ∧
    getWorkflowRunIds ("refs/heads/main") (fun _ => (500, [])) =
      .error ("Failed to get Workflow runs, expected 200 but received 500") :=
  ⟨(getWorkflowRunIds_branch_scoping ("refs/heads/main") ("main")
      (fun _ => (500, []))).2.1 (by decide),
   (getWorkflowRunIds_branch_scoping ("refs/tags/v1.0") ("main")
      (fun _ => (500, []))).2.2.1 (by decide),
   (getWorkflowRunIds_branch_scoping ("refs/heads/main") ("main")
      (fun _ => (500, []))).2.2.2 (by decide)⟩

/-- C8: on a 200 response, `getWorkflowRunJobSteps` returns the step names
of all jobs flattened in order and de-duplicated: the result has no
duplicates, contains exactly the names occurring across the jobs, and
lists them in strictly increasing order of first occurrence in the
flattened sequence (insertion order preserved). -/
theorem getWorkflowRunJobSteps_dedup (jobs : List Job) :
    getWorkflowRunJobSteps (200, jobs) = .ok (jsSetDedup (allStepNames jobs)) ∧
    (jsSetDedup (allStepNames jobs)).Nodup ∧
    (∀ s, s ∈ jsSetDedup (allStepNames jobs) ↔ s ∈ allStepNames jobs) ∧
    (jsSetDedup (allStepNames jobs)).Pairwise
      (fun a b => firstIdx a (allStepNames jobs) < firstIdx b (allStepNames jobs)) :=
  ⟨by simp [getWorkflowRunJobSteps], jsSetDedup_nodup _,
   fun s => jsSetDedup_mem _ s, jsSetDedup_pairwise _⟩

end WorkflowDispatch
